import Mathlib

/-!
Verification of the patent-curation pipeline: the commercial-scoring
normalizer and weighted combination (`modules/scoring.py`, `main.py`),
the Google-Trends per-keyword analysis (`modules/google_trends.py`),
the multi-keyword aggregation (`main.py`), and the input-column
validation (`modules/data_loader.py`).

Numeric modelling: pandas/numpy float arithmetic is modelled over `ℚ`
where the code only adds, divides and compares (trend scores, means,
consensus), and over `ℝ` where the code applies `np.log1p`
(the scoring normalizer).  Missing values (`NaN` before `fillna`)
are modelled as `Option` with `getD 0` for `fillna(0)`.
-/

namespace Pipeline

/-! ### Google Trends analysis (`modules/google_trends.py`) -/

/-- Mean of a pandas numeric series (`series.mean()` = sum / count).
Over `ℚ`, the empty series gives `0/0 = 0`; the code only takes means
of nonempty series. -/
def mean (l : List ℚ) : ℚ := l.sum / l.length

/-- `GoogleTrendsAnalyzer._calculate_trend_direction`
(`modules/google_trends.py` lines 209-232): split the interest series
at its midpoint, compare the two halves' means; `>25%` change ⇒
`rising`, `<-25%` ⇒ `falling`, else `stable`; fewer than 10 points ⇒
`unknown`; a zero first-half mean short-circuits to `stable`. -/
def calculate_trend_direction (trend_data : List ℚ) : String :=
  if trend_data.length < 10 then "unknown"
  else
    let mid := trend_data.length / 2
    let first_half := mean (trend_data.take mid)
    let second_half := mean (trend_data.drop mid)
    if first_half = 0 then "stable"
    else
      let change_pct := ((second_half - first_half) / first_half) * 100
      if change_pct > 25 then "rising"
      else if change_pct < -25 then "falling"
      else "stable"

/-- The trend-direction rule as the specification words it
("splitting the queried time series at its midpoint and comparing the
mean of the first half to the mean of the second half: >+25% change ⇒
rising, <−25% ⇒ falling, else stable; fewer than 10 data points ⇒
unknown").  The spec does not single out a zero first-half mean; with
`ℚ` semantics `x / 0 = 0` the percent change is then `0`, landing in
the `stable` branch. -/
def specTrendDirection (series : List ℚ) : String :=
  if series.length < 10 then "unknown"
  else
    let mid := series.length / 2
    let firstMean := mean (series.take mid)
    let secondMean := mean (series.drop mid)
    let changePct := ((secondMean - firstMean) / firstMean) * 100
    if changePct > 25 then "rising"
    else if changePct < -25 then "falling"
    else "stable"

/-- `GoogleTrendsAnalyzer._normalize_score`
(`modules/google_trends.py` lines 234-259): base `avg_interest/100`,
multiplier 1.3 for `rising`, 0.7 for `falling`, 1.0 otherwise,
clamped to `[0, 1]` by `min(max(final, 0.0), 1.0)`. -/
def normalize_score (avg_interest : ℚ) (trend_direction : String) : ℚ :=
  let base := avg_interest / 100
  let multiplier : ℚ :=
    if trend_direction = "rising" then 1.3
    else if trend_direction = "falling" then 0.7
    else 1.0
  let final := base * multiplier
  min (max final 0) 1

/-- `clamp(x, lo, hi)` as the specification words it. -/
def clamp (x lo hi : ℚ) : ℚ := min (max x lo) hi

/-- The per-keyword normalized trend score as the specification words
it: `clamp(average_interest/100 × multiplier, 0, 1)` with multiplier
1.3 when rising, 0.7 when falling, 1.0 otherwise. -/
def specNormalizedScore (average_interest : ℚ) (direction : String) : ℚ :=
  let multiplier : ℚ :=
    if direction = "rising" then 1.3
    else if direction = "falling" then 0.7
    else 1.0
  clamp (average_interest / 100 * multiplier) 0 1

/-- The dict returned by `GoogleTrendsAnalyzer.analyze_patent`
(`modules/google_trends.py` lines 97-102). -/
structure TrendResult where
  keyword : String
  avg_interest : ℚ
  trend_direction : String
  final_score : ℚ
deriving DecidableEq

/-- `GoogleTrendsAnalyzer._empty_result`
(`modules/google_trends.py` lines 261-268). -/
def empty_result : TrendResult :=
  { keyword := "", avg_interest := 0, trend_direction := "unknown", final_score := 0 }

/-- `GoogleTrendsAnalyzer.analyze_patent`
(`modules/google_trends.py` lines 60-102).  The two external effects
are passed as oracles: `extract` models `_extract_keyword` (pure text
munging of the title) and `lookup` models `_get_trends_data`, which
performs the network call with retry/backoff and returns `None`
(`Option.none` here) on every failure path — timeout, rate-limit
exhaustion, or Google returning no data — and otherwise the interest
series. -/
def analyze_patent (extract : String → String) (lookup : String → Option (List ℚ))
    (title : String) : TrendResult :=
  let keyword := extract title
  if keyword = "" then empty_result
  else
    match lookup keyword with
    | none => empty_result
    | some trend_data =>
      if trend_data.length = 0 then empty_result
      else
        let avg_interest := mean trend_data
        let trend_direction := calculate_trend_direction trend_data
        let final_score := normalize_score avg_interest trend_direction
        { keyword := keyword, avg_interest := avg_interest,
          trend_direction := trend_direction, final_score := final_score }

/-! ### Multi-keyword aggregation (`main.py`, `_trends_with_ai_keywords`) -/

/-- One entry of `keyword_results` built in `_trends_with_ai_keywords`
(`main.py` lines 172-177): the original keyword together with the
fields of its `analyze_patent` result. -/
structure KeywordResult where
  keyword : String
  score : ℚ
  direction : String
  avg_interest : ℚ
deriving DecidableEq

/-- The aggregate row stored per patent by `_trends_with_ai_keywords`
(`main.py` lines 201-214); only the first individual-keyword slot is
modelled since `_empty_trends_result` documents exactly that slot. -/
structure TrendsRow where
  average_score : ℚ
  best_keyword : String
  consensus : String
  keyword_1 : String
  score_1 : ℚ
  direction_1 : String
  interest_1 : ℚ
deriving DecidableEq

/-- `_empty_trends_result` (`main.py` lines 228-239): the sentinel row
emitted for a patent with no AI keywords. -/
def empty_trends_result : TrendsRow :=
  { average_score := 0, best_keyword := "", consensus := "Unknown",
    keyword_1 := "", score_1 := 0, direction_1 := "unknown", interest_1 := 0 }

/-- The consensus vote of `_trends_with_ai_keywords`
(`main.py` lines 190-196). -/
def consensusOf (directions : List String) : String :=
  if directions.count "rising" ≥ 2 then "Rising"
  else if directions.count "falling" ≥ 2 then "Falling"
  else "Mixed"

/-- Python's builtin `max(keyword_results, key=lambda x: x['score'])`:
walk the list keeping the current best, replacing it only on a strictly
greater key, so the first occurrence wins ties. -/
def pyMax (acc : KeywordResult) : List KeywordResult → KeywordResult
  | [] => acc
  | x :: xs => pyMax (if acc.score < x.score then x else acc) xs

/-- The aggregation across one patent's keyword results
(`main.py` lines 185-214): average score, best keyword by Python
`max`, consensus, and the first individual slot.  The `[]` case is
unreachable from `trends_for_record` (which routes an empty keyword
list to the sentinel first) and returns the same sentinel. -/
def aggregate_record (keyword_results : List KeywordResult) : TrendsRow :=
  match keyword_results with
  | [] => empty_trends_result
  | r :: rs =>
    let avg_score := ((r :: rs).map KeywordResult.score).sum / ((r :: rs).length : ℚ)
    let best_keyword := pyMax r rs
    let consensus := consensusOf ((r :: rs).map KeywordResult.direction)
    { average_score := avg_score, best_keyword := best_keyword.keyword,
      consensus := consensus, keyword_1 := r.keyword, score_1 := r.score,
      direction_1 := r.direction, interest_1 := r.avg_interest }

/-- The per-keyword loop of `_trends_with_ai_keywords`
(`main.py` lines 160-177): analyze up to 3 keywords
(`keywords_list[:3]`), recording for each the original keyword and the
score/direction/interest of its `analyze_patent` result. -/
def keyword_results_of (extract : String → String) (lookup : String → Option (List ℚ))
    (keywords_list : List String) : List KeywordResult :=
  (keywords_list.take 3).map (fun keyword =>
    let result := analyze_patent extract lookup keyword
    { keyword := keyword, score := result.final_score,
      direction := result.trend_direction, avg_interest := result.avg_interest })

/-- The per-patent body of `_trends_with_ai_keywords`
(`main.py` lines 149-215): no AI keywords ⇒ the sentinel row,
otherwise aggregate the per-keyword results. -/
def trends_for_record (extract : String → String) (lookup : String → Option (List ℚ))
    (keywords_list : List String) : TrendsRow :=
  if keywords_list = [] then empty_trends_result
  else aggregate_record (keyword_results_of extract lookup keywords_list)

/-- `_trends_with_ai_keywords` over the whole batch
(`main.py` lines 134-225): one aggregate row per input record. -/
def trends_with_ai_keywords (extract : String → String) (lookup : String → Option (List ℚ))
    (records : List (List String)) : List TrendsRow :=
  records.map (trends_for_record extract lookup)

/-! ### Input validation (`modules/data_loader.py`) -/

/-- The input table at column granularity: `_validate_columns` only
consults `df.columns`. -/
structure LensDf where
  columns : List String
deriving DecidableEq

/-- `_clean_data` (`modules/data_loader.py` lines 34-47) rewrites cell
values in place (`to_numeric`/`fillna(0)` on the three metric columns,
upper-cased legal status) and leaves the column set unchanged, so at
column granularity it is the identity. -/
def clean_data (df : LensDf) : LensDf := df

/-- The `missing` list of `DataLoader._validate_columns`
(`modules/data_loader.py` line 27):
`[col for col in required if col not in df.columns]`. -/
def missing_columns (required : List String) (df_columns : List String) : List String :=
  required.filter (fun col => decide (col ∉ df_columns))

/-- `DataLoader._validate_columns` (`modules/data_loader.py` lines
25-32): `required = list(config.COLUMNS.values())`; raise `KeyError`
carrying the missing list when it is nonempty.  The raised exception is
modelled as `Except.error` carrying the list interpolated into the
`KeyError` message. -/
def validate_columns (config_columns : List (String × String)) (df : LensDf) :
    Except (List String) Unit :=
  let required := config_columns.map Prod.snd
  let missing := missing_columns required df.columns
  if missing = [] then Except.ok () else Except.error missing

/-- `DataLoader.load_csv` after the file has been read
(`modules/data_loader.py` lines 9-23): validate the columns, then
clean the data; a validation error propagates and the cleaning (and
everything after it) never runs. -/
def load_csv (config_columns : List (String × String)) (df : LensDf) :
    Except (List String) LensDf :=
  match validate_columns config_columns df with
  | Except.error missing => Except.error missing
  | Except.ok () => Except.ok (clean_data df)

/-- `Config.COLUMNS` (`config.py` lines 14-23). -/
def Config_COLUMNS : List (String × String) :=
  [("citations_patent", "Cited by Patent Count"),
   ("citations_npl", "NPL Citation Count"),
   ("family_size", "Simple Family Size"),
   ("legal_status", "Legal Status"),
   ("title", "Title"),
   ("abstract", "Abstract"),
   ("pub_year", "Publication Year"),
   ("url", "URL")]

/-! ### Commercial scoring (`modules/scoring.py`, recalculation in `main.py`) -/

/-- `np.log1p(x) = log(1 + x)`. -/
noncomputable def log1p (x : ℝ) : ℝ := Real.log (1 + x)

/-- `series.min()` over a column, written as a fold; the `[]` default
is inert (the scorer maps an empty table to an empty score column on
both branches). -/
noncomputable def colMin : List ℝ → ℝ
  | [] => 0
  | x :: xs => xs.foldl min x

/-- `series.max()` over a column. -/
noncomputable def colMax : List ℝ → ℝ
  | [] => 0
  | x :: xs => xs.foldl max x

/-- One metric column of `CommercialScoring.calculate_scores`
(`modules/scoring.py` lines 15-24): `log1p(fillna(0))`, then min-max
scale by the column's own min/max, with the constant column
(`max <= min`) sent to 0. -/
noncomputable def normalizeColumn (column : List (Option ℝ)) : List ℝ :=
  let log_metric := column.map (fun v => log1p (v.getD 0))
  let min_val := colMin log_metric
  let max_val := colMax log_metric
  if max_val > min_val then
    log_metric.map (fun x => (x - min_val) / (max_val - min_val))
  else log_metric.map (fun _ => 0)

/-- The three raw metric cells of one table row (`NaN` as `none`). -/
structure PatentRow where
  citations_patent : Option ℝ
  citations_npl : Option ℝ
  family_size : Option ℝ

/-- `config.WEIGHTS` (`config.py` lines 33-38): all four keys are
present in every shipped config variant. -/
structure Weights where
  citations_patent : ℝ
  citations_npl : ℝ
  family_size : ℝ
  google_trends : ℝ

/-- The shipped `Config.WEIGHTS` values (variant A). -/
noncomputable def configWeights : Weights :=
  { citations_patent := 0.40, citations_npl := 0.35,
    family_size := 0.25, google_trends := 0.00 }

/-- A uniformly rescaled weight set (every supplied weight multiplied
by the same factor `c`), used to state the rescaling-invariance claim. -/
noncomputable def scaleWeights (c : ℝ) (w : Weights) : Weights :=
  { citations_patent := c * w.citations_patent, citations_npl := c * w.citations_npl,
    family_size := c * w.family_size, google_trends := c * w.google_trends }

/-- `score_{metric}` column of `calculate_scores`. -/
noncomputable def scoreColumn (df : List PatentRow) (metric : PatentRow → Option ℝ) : List ℝ :=
  normalizeColumn (df.map metric)

/-- The `Final_Score` column of `CommercialScoring.calculate_scores`
(`modules/scoring.py` lines 30-34): the three normalized metric
columns combined with the *raw* configured weights — the base scorer
performs no weight renormalization. -/
noncomputable def finalScores (w : Weights) (df : List PatentRow) : List ℝ :=
  List.zipWith3
    (fun score_patent score_npl score_family =>
      score_patent * w.citations_patent + score_npl * w.citations_npl +
        score_family * w.family_size)
    (scoreColumn df PatentRow.citations_patent)
    (scoreColumn df PatentRow.citations_npl)
    (scoreColumn df PatentRow.family_size)

/-- `total_weight = w_patent + w_npl + w_family + w_trends`
(`main.py` line 257). -/
noncomputable def weightTotal (w : Weights) : ℝ :=
  w.citations_patent + w.citations_npl + w.family_size + w.google_trends

/-- The renormalization `w_i /= total_weight` performed only by
`_recalculate_with_trends` (`main.py` lines 257-261). -/
noncomputable def renormWeights (w : Weights) : Weights :=
  { citations_patent := w.citations_patent / weightTotal w,
    citations_npl := w.citations_npl / weightTotal w,
    family_size := w.family_size / weightTotal w,
    google_trends := w.google_trends / weightTotal w }

/-- One row entering `_recalculate_with_trends`: the three normalized
metric scores already on the table, plus the (possibly missing)
`Google_Trends_Average_Score`. -/
structure ScoredRow where
  score_patent : ℝ
  score_npl : ℝ
  score_family : ℝ
  google_trends_average : Option ℝ

/-- The recomputed `Final_Score` of `_recalculate_with_trends`
(`main.py` lines 242-272): renormalized weights times the score
columns, with the trend column defaulted to 0 (`fillna(0)` / missing
column). -/
noncomputable def recalcFinalScore (w : Weights) (row : ScoredRow) : ℝ :=
  let wr := renormWeights w
  let score_google_trends := row.google_trends_average.getD 0
  row.score_patent * wr.citations_patent + row.score_npl * wr.citations_npl +
    row.score_family * wr.family_size + score_google_trends * wr.google_trends

/-- A three-row table on which every final score ties: each record has
the same raw metrics `(5, 5, 5)`, so each metric column is constant,
normalizes to zero, and every `Final_Score` is 0.  The output order of
`df.sort_values(by='Final_Score', ascending=False)` on such a table is
governed entirely by tie handling, for which the call's default
`kind='quicksort'` (numpy introsort) gives no stability guarantee. -/
noncomputable def tiedDf : List PatentRow :=
  [{ citations_patent := some 5, citations_npl := some 5, family_size := some 5 },
   { citations_patent := some 5, citations_npl := some 5, family_size := some 5 },
   { citations_patent := some 5, citations_npl := some 5, family_size := some 5 }]

/-- A two-row table separating the rescaling behaviour of the base
scorer: row 0 has raw metrics `(1, 1, 1)`, row 1 has `(0, 0, 0)`. -/
noncomputable def demoDf : List PatentRow :=
  [{ citations_patent := some 1, citations_npl := some 1, family_size := some 1 },
   { citations_patent := some 0, citations_npl := some 0, family_size := some 0 }]

/-! ### Helper lemmas -/

theorem count_add_count_le (a b : String) (hab : a ≠ b) (l : List String) :
    l.count a + l.count b ≤ l.length := by
  induction l with
  | nil => simp
  | cons x xs ih =>
    simp only [List.count_cons, List.length_cons, beq_iff_eq]
    by_cases hax : x = a
    · have hbx : ¬ x = b := fun h => hab (hax.symm.trans h)
      simp only [if_pos hax, if_neg hbx]
      omega
    · by_cases hbx : x = b
      · simp only [if_neg hax, if_pos hbx]
        omega
      · simp only [if_neg hax, if_neg hbx]
        omega

theorem pyMax_score_mono (l : List KeywordResult) :
    ∀ acc, acc.score ≤ (pyMax acc l).score := by
  induction l with
  | nil => intro acc; exact le_refl _
  | cons x xs ih =>
    intro acc
    by_cases h : acc.score < x.score
    · simp only [pyMax, if_pos h]
      exact le_trans (le_of_lt h) (ih x)
    · simpa only [pyMax, if_neg h] using ih acc

theorem pyMax_mem (l : List KeywordResult) :
    ∀ acc, pyMax acc l = acc ∨ pyMax acc l ∈ l := by
  induction l with
  | nil => intro acc; exact Or.inl rfl
  | cons x xs ih =>
    intro acc
    by_cases h : acc.score < x.score
    · simp only [pyMax, if_pos h]
      rcases ih x with h1 | h1
      · exact Or.inr (by rw [h1]; exact List.mem_cons_self x xs)
      · exact Or.inr (List.mem_cons_of_mem x h1)
    · simp only [pyMax, if_neg h]
      rcases ih acc with h1 | h1
      · exact Or.inl h1
      · exact Or.inr (List.mem_cons_of_mem x h1)

theorem pyMax_is_max (l : List KeywordResult) :
    ∀ acc, ∀ x ∈ l, x.score ≤ (pyMax acc l).score := by
  induction l with
  | nil => intro acc x hx; cases hx
  | cons y ys ih =>
    intro acc x hx
    rcases List.mem_cons.1 hx with rfl | hx'
    · by_cases h : acc.score < x.score
      · simp only [pyMax, if_pos h]
        exact pyMax_score_mono ys x
      · simp only [pyMax, if_neg h]
        exact le_trans (le_of_not_lt h) (pyMax_score_mono ys acc)
    · by_cases h : acc.score < y.score
      · simp only [pyMax, if_pos h]
        exact ih y x hx'
      · simp only [pyMax, if_neg h]
        exact ih acc x hx'

theorem pyMax_eq_of_le (l : List KeywordResult) :
    ∀ acc, (pyMax acc l).score ≤ acc.score → pyMax acc l = acc := by
  induction l with
  | nil => intro acc _; rfl
  | cons x xs ih =>
    intro acc hle
    by_cases h : acc.score < x.score
    · exfalso
      have heq : pyMax acc (x :: xs) = pyMax x xs := by simp only [pyMax, if_pos h]
      rw [heq] at hle
      exact absurd (lt_of_lt_of_le h (le_trans (pyMax_score_mono xs x) hle)) (lt_irrefl _)
    · have heq : pyMax acc (x :: xs) = pyMax acc xs := by simp only [pyMax, if_neg h]
      rw [heq] at hle ⊢
      exact ih acc hle

theorem pyMax_find_tail (l : List KeywordResult) :
    ∀ acc, ¬ (pyMax acc l).score ≤ acc.score →
      l.find? (fun x => decide ((pyMax acc l).score ≤ x.score)) = some (pyMax acc l) := by
  induction l with
  | nil => intro acc h; exact absurd (le_refl _) h
  | cons x xs ih =>
    intro acc hgt
    by_cases h : acc.score < x.score
    · have heq : pyMax acc (x :: xs) = pyMax x xs := by simp only [pyMax, if_pos h]
      rw [heq] at hgt ⊢
      by_cases hx : (pyMax x xs).score ≤ x.score
      · have hb : pyMax x xs = x := pyMax_eq_of_le xs x hx
        rw [hb]
        rw [List.find?_cons_of_pos]
        simp
      · rw [List.find?_cons_of_neg]
        · exact ih x hx
        · simpa using hx
    · have heq : pyMax acc (x :: xs) = pyMax acc xs := by simp only [pyMax, if_neg h]
      rw [heq] at hgt ⊢
      have hpx : ¬ (pyMax acc xs).score ≤ x.score :=
        fun hc => hgt (le_trans hc (le_of_not_lt h))
      rw [List.find?_cons_of_neg]
      · exact ih acc hgt
      · simpa using hpx

theorem pyMax_find (r : KeywordResult) (rs : List KeywordResult) :
    (r :: rs).find? (fun x => decide ((pyMax r rs).score ≤ x.score)) = some (pyMax r rs) := by
  by_cases h : (pyMax r rs).score ≤ r.score
  · have hb : pyMax r rs = r := pyMax_eq_of_le rs r h
    rw [hb]
    rw [List.find?_cons_of_pos]
    simp
  · rw [List.find?_cons_of_neg]
    · exact pyMax_find_tail rs r h
    · simpa using h

/-! ### Claim theorems -/

/-- C4: the per-keyword normalized trend score equals
`clamp(average_interest/100 × multiplier, 0, 1)` with multiplier 1.3
for rising, 0.7 for falling, 1.0 otherwise; in particular interest 80
with rising gives 1.0 and interest 50 with falling gives 0.35. -/
theorem C4_trend_normalized_score :
    (∀ (avg_interest : ℚ) (direction : String),
        normalize_score avg_interest direction = specNormalizedScore avg_interest direction) ∧
    normalize_score 80 "rising" = 1 ∧
    normalize_score 50 "falling" = 0.35 := by
  refine ⟨fun avg_interest direction => rfl, ?_, ?_⟩
  · norm_num [normalize_score, min_def, max_def]
  · norm_num [normalize_score, min_def, max_def,
      show ("falling" : String) ≠ "rising" from by decide]

/-- C5: the trend direction splits the series at its midpoint and
compares half means (>+25% ⇒ rising, <−25% ⇒ falling, else stable;
fewer than 10 points ⇒ unknown), exactly as the spec words it; the
spec's worked examples (half-means 40→60 ⇒ rising, 40→35 ⇒ stable,
short series ⇒ unknown) evaluate as claimed. -/
theorem C5_trend_direction :
    (∀ trend_data : List ℚ,
        calculate_trend_direction trend_data = specTrendDirection trend_data) ∧
    calculate_trend_direction [40, 40, 40, 40, 40, 60, 60, 60, 60, 60] = "rising" ∧
    calculate_trend_direction [40, 40, 40, 40, 40, 35, 35, 35, 35, 35] = "stable" ∧
    calculate_trend_direction [40, 40, 40] = "unknown" := by
  refine ⟨fun trend_data => ?_,
    by norm_num [calculate_trend_direction, mean],
    by norm_num [calculate_trend_direction, mean],
    by norm_num [calculate_trend_direction]⟩
  by_cases h10 : trend_data.length < 10
  · simp [calculate_trend_direction, specTrendDirection, h10]
  · by_cases h0 : mean (trend_data.take (trend_data.length / 2)) = 0
    · norm_num [calculate_trend_direction, specTrendDirection, h10, h0]
    · simp [calculate_trend_direction, specTrendDirection, h10, h0]

/-- C10: whenever the series has at least 10 points and the first-half
mean is 0, the direction computation returns `stable` without entering
the percent-change branch, whatever the second half holds. -/
theorem C10_zero_first_half_stable (trend_data : List ℚ)
    (hlen : 10 ≤ trend_data.length)
    (h0 : mean (trend_data.take (trend_data.length / 2)) = 0) :
    calculate_trend_direction trend_data = "stable" := by
  have h10 : ¬ trend_data.length < 10 := by omega
  simp [calculate_trend_direction, h10, h0]

/-- Witness for C10 at the concrete series `[0,0,0,0,0,60,60,60,60,60]`. -/
theorem C10_zero_first_half_stable_witness :
    10 ≤ ([0, 0, 0, 0, 0, 60, 60, 60, 60, 60] : List ℚ).length ∧
    mean (([0, 0, 0, 0, 0, 60, 60, 60, 60, 60] : List ℚ).take
      (([0, 0, 0, 0, 0, 60, 60, 60, 60, 60] : List ℚ).length / 2)) = 0 ∧
    calculate_trend_direction [0, 0, 0, 0, 0, 60, 60, 60, 60, 60] = "stable" :=
  ⟨by decide, by norm_num [mean],
    C10_zero_first_half_stable [0, 0, 0, 0, 0, 60, 60, 60, 60, 60] (by decide)
      (by norm_num [mean])⟩

/-- C6: for at most 3 per-keyword directions the consensus is
`Rising` iff at least 2 are rising, `Falling` iff at least 2 are
falling, `Mixed` otherwise; a record with no keywords yields the
documented sentinel row (consensus `Unknown`, zero scores, direction
`unknown`) instead of being omitted; the spec's worked examples hold. -/
theorem C6_consensus :
    (∀ directions : List String, directions.length ≤ 3 →
      ((consensusOf directions = "Rising" ↔ directions.count "rising" ≥ 2) ∧
       (consensusOf directions = "Falling" ↔ directions.count "falling" ≥ 2) ∧
       (consensusOf directions = "Mixed" ↔
         directions.count "rising" < 2 ∧ directions.count "falling" < 2))) ∧
    (∀ (extract : String → String) (lookup : String → Option (List ℚ)),
        trends_for_record extract lookup [] = empty_trends_result) ∧
    empty_trends_result.consensus = "Unknown" ∧
    empty_trends_result.average_score = 0 ∧
    empty_trends_result.direction_1 = "unknown" ∧
    consensusOf ["rising", "rising", "falling"] = "Rising" ∧
    consensusOf ["rising", "falling", "stable"] = "Mixed" := by
  refine ⟨?_, fun extract lookup => rfl, rfl, rfl, rfl, by decide, by decide⟩
  intro ds hlen
  have hrf : ds.count "rising" + ds.count "falling" ≤ ds.length :=
    count_add_count_le "rising" "falling" (by decide) ds
  by_cases h1 : ds.count "rising" ≥ 2
  · have heq : consensusOf ds = "Rising" := by simp [consensusOf, h1]
    rw [heq]
    exact ⟨⟨fun _ => h1, fun _ => rfl⟩,
      ⟨fun h => absurd h (by decide), fun h => absurd h (by omega)⟩,
      ⟨fun h => absurd h (by decide), fun hc => absurd hc.1 (by omega)⟩⟩
  · by_cases h2 : ds.count "falling" ≥ 2
    · have heq : consensusOf ds = "Falling" := by simp [consensusOf, h1, h2]
      rw [heq]
      exact ⟨⟨fun h => absurd h (by decide), fun h => absurd h h1⟩,
        ⟨fun _ => h2, fun _ => rfl⟩,
        ⟨fun h => absurd h (by decide), fun hc => absurd hc.2 (by omega)⟩⟩
    · have heq : consensusOf ds = "Mixed" := by simp [consensusOf, h1, h2]
      rw [heq]
      exact ⟨⟨fun h => absurd h (by decide), fun h => absurd h h1⟩,
        ⟨fun h => absurd h (by decide), fun h => absurd h h2⟩,
        ⟨fun _ => ⟨by omega, by omega⟩, fun _ => rfl⟩⟩

/-- Witness for C6 at the spec's first worked example. -/
theorem C6_consensus_witness :
    (["rising", "rising", "falling"] : List String).length ≤ 3 ∧
    (consensusOf ["rising", "rising", "falling"] = "Rising" ↔
      (["rising", "rising", "falling"] : List String).count "rising" ≥ 2) :=
  ⟨by decide, (C6_consensus.1 ["rising", "rising", "falling"] (by decide)).1⟩

/-- C7: for a record's keyword results the aggregate `average_score`
is the arithmetic mean of the per-keyword scores (0 for the
no-keyword sentinel), and `best_keyword` is Python `max` by score,
which attains the maximal score and is the first list entry whose
score reaches it (ties resolve to the first occurrence). -/
theorem C7_aggregate_average_best :
    (aggregate_record []).average_score = 0 ∧
    ∀ (r : KeywordResult) (rs : List KeywordResult),
      (aggregate_record (r :: rs)).average_score =
        ((r :: rs).map KeywordResult.score).sum / ((r :: rs).length : ℚ) ∧
      (aggregate_record (r :: rs)).best_keyword = (pyMax r rs).keyword ∧
      (pyMax r rs = r ∨ pyMax r rs ∈ rs) ∧
      (∀ x ∈ r :: rs, x.score ≤ (pyMax r rs).score) ∧
      (r :: rs).find? (fun x => decide ((pyMax r rs).score ≤ x.score)) = some (pyMax r rs) := by
  refine ⟨rfl, fun r rs => ⟨rfl, rfl, pyMax_mem rs r, ?_, pyMax_find r rs⟩⟩
  intro x hx
  rcases List.mem_cons.1 hx with rfl | hx'
  · exact pyMax_score_mono rs x
  · exact pyMax_is_max rs r x hx'

/-- Witness for C7 on a two-entry tie: `best_keyword` is the first of
the two equal-score keywords. -/
theorem C7_aggregate_average_best_witness :
    (aggregate_record [⟨"alpha", 1/2, "stable", 10⟩, ⟨"beta", 1/2, "rising", 20⟩]).best_keyword =
      (pyMax ⟨"alpha", 1/2, "stable", 10⟩ [⟨"beta", 1/2, "rising", 20⟩]).keyword ∧
    (∀ x ∈ [(⟨"alpha", 1/2, "stable", 10⟩ : KeywordResult), ⟨"beta", 1/2, "rising", 20⟩],
        x.score ≤ (pyMax ⟨"alpha", 1/2, "stable", 10⟩ [⟨"beta", 1/2, "rising", 20⟩]).score) ∧
    (pyMax ⟨"alpha", 1/2, "stable", 10⟩ [⟨"beta", 1/2, "rising", 20⟩]).keyword = "alpha" := by
  have h := C7_aggregate_average_best.2 ⟨"alpha", 1/2, "stable", 10⟩ [⟨"beta", 1/2, "rising", 20⟩]
  exact ⟨h.2.1, h.2.2.2.1, by norm_num [pyMax]⟩

/-- C8: a failed single-keyword lookup (timeout / rate limit / no
data, all surfacing as `none` from the lookup oracle, or an empty
series) degrades exactly that keyword to the zero-score sentinel
(empty keyword, direction `unknown`); the per-keyword result list
still has one entry per (≤3) keyword, a failed keyword's entry is the
degraded one, and the batch still has one aggregate row per record —
no failure aborts the run. -/
theorem C8_lookup_failure_degrades
    (extract : String → String) (lookup : String → Option (List ℚ)) :
    (∀ title, lookup (extract title) = none →
        analyze_patent extract lookup title = empty_result) ∧
    (∀ title, lookup (extract title) = some [] →
        analyze_patent extract lookup title = empty_result) ∧
    empty_result = { keyword := "", avg_interest := 0, trend_direction := "unknown",
                     final_score := 0 } ∧
    (∀ keywords_list : List String,
        (keyword_results_of extract lookup keywords_list).length =
          min 3 keywords_list.length) ∧
    (∀ (keywords_list : List String), ∀ kw ∈ keywords_list.take 3,
        lookup (extract kw) = none →
        ({ keyword := kw, score := 0, direction := "unknown", avg_interest := 0 } :
          KeywordResult) ∈ keyword_results_of extract lookup keywords_list) ∧
    (∀ records : List (List String),
        (trends_with_ai_keywords extract lookup records).length = records.length) := by
  have hnone : ∀ title, lookup (extract title) = none →
      analyze_patent extract lookup title = empty_result := by
    intro title h
    by_cases hk : extract title = ""
    · simp [analyze_patent, hk]
    · simp [analyze_patent, hk, h]
  refine ⟨hnone, ?_, rfl, ?_, ?_, ?_⟩
  · intro title h
    by_cases hk : extract title = ""
    · simp [analyze_patent, hk]
    · simp [analyze_patent, hk, h]
  · intro keywords_list
    simp [keyword_results_of]
  · intro keywords_list kw hkw hfail
    refine List.mem_map.2 ⟨kw, hkw, ?_⟩
    simp [hnone kw hfail, empty_result]
  · intro records
    simp [trends_with_ai_keywords]

/-- Witness for C8: the all-failing oracle degrades a keyword to the
sentinel. -/
theorem C8_lookup_failure_degrades_witness :
    analyze_patent id (fun _ => none) "solar panel" = empty_result :=
  (C8_lookup_failure_degrades id (fun _ => none)).1 "solar panel" rfl

/-- C9: if any required configured column is absent from the loaded
table, `load_csv` fails with an error carrying exactly the list of all
missing required names (in required order), and — since the result is
an error — no later pipeline stage (cleaning included) ever receives a
table; the required names for the shipped `Config` are the eight
documented columns. -/
theorem C9_missing_columns_fail_fast
    (config_columns : List (String × String)) (df : LensDf)
    (h : missing_columns (config_columns.map Prod.snd) df.columns ≠ []) :
    load_csv config_columns df =
      Except.error (missing_columns (config_columns.map Prod.snd) df.columns) ∧
    (∀ col, col ∈ missing_columns (config_columns.map Prod.snd) df.columns ↔
        col ∈ config_columns.map Prod.snd ∧ col ∉ df.columns) ∧
    (∀ {α : Type} (stage : LensDf → Except (List String) α),
        (load_csv config_columns df >>= stage) =
          Except.error (missing_columns (config_columns.map Prod.snd) df.columns)) ∧
    Config_COLUMNS.map Prod.snd =
      ["Cited by Patent Count", "NPL Citation Count", "Simple Family Size", "Legal Status",
       "Title", "Abstract", "Publication Year", "URL"] := by
  have hload : load_csv config_columns df =
      Except.error (missing_columns (config_columns.map Prod.snd) df.columns) := by
    simp [load_csv, validate_columns, h]
  refine ⟨hload, ?_, ?_, by decide⟩
  · intro col
    simp [missing_columns, List.mem_filter]
  · intro α stage
    rw [hload]
    rfl

/-- Witness for C9: loading a table with no columns at all under the
shipped config fails with all eight required names missing. -/
theorem C9_missing_columns_fail_fast_witness :
    load_csv Config_COLUMNS ⟨[]⟩ =
      Except.error (missing_columns (Config_COLUMNS.map Prod.snd) (LensDf.mk []).columns) :=
  (C9_missing_columns_fail_fast Config_COLUMNS ⟨[]⟩ (by decide)).1

theorem foldl_min_le_init (xs : List ℝ) : ∀ a : ℝ, xs.foldl min a ≤ a := by
  induction xs with
  | nil => intro a; exact le_refl a
  | cons x xs ih => intro a; exact le_trans (ih (min a x)) (min_le_left a x)

theorem foldl_min_le_mem (xs : List ℝ) : ∀ a : ℝ, ∀ x ∈ xs, xs.foldl min a ≤ x := by
  induction xs with
  | nil => intro a x hx; cases hx
  | cons y ys ih =>
    intro a x hx
    rcases List.mem_cons.1 hx with rfl | hx'
    · exact le_trans (foldl_min_le_init ys (min a x)) (min_le_right a x)
    · exact ih (min a y) x hx'

theorem le_foldl_max_init (xs : List ℝ) : ∀ a : ℝ, a ≤ xs.foldl max a := by
  induction xs with
  | nil => intro a; exact le_refl a
  | cons x xs ih => intro a; exact le_trans (le_max_left a x) (ih (max a x))

theorem le_foldl_max_mem (xs : List ℝ) : ∀ a : ℝ, ∀ x ∈ xs, x ≤ xs.foldl max a := by
  induction xs with
  | nil => intro a x hx; cases hx
  | cons y ys ih =>
    intro a x hx
    rcases List.mem_cons.1 hx with rfl | hx'
    · exact le_trans (le_max_right a x) (le_foldl_max_init ys (max a x))
    · exact ih (max a y) x hx'

theorem colMin_le_of_mem {l : List ℝ} {x : ℝ} (hx : x ∈ l) : colMin l ≤ x := by
  cases l with
  | nil => cases hx
  | cons y ys =>
    rcases List.mem_cons.1 hx with rfl | hx'
    · exact foldl_min_le_init ys x
    · exact foldl_min_le_mem ys y x hx'

theorem le_colMax_of_mem {l : List ℝ} {x : ℝ} (hx : x ∈ l) : x ≤ colMax l := by
  cases l with
  | nil => cases hx
  | cons y ys =>
    rcases List.mem_cons.1 hx with rfl | hx'
    · exact le_foldl_max_init ys x
    · exact le_foldl_max_mem ys y x hx'

theorem foldl_min_all_eq (xs : List ℝ) : ∀ a : ℝ, (∀ x ∈ xs, x = a) → xs.foldl min a = a := by
  induction xs with
  | nil => intro a _; rfl
  | cons y ys ih =>
    intro a h
    have hy : y = a := h y (List.mem_cons_self y ys)
    show List.foldl min (min a y) ys = a
    rw [hy, min_self]
    exact ih a (fun x hx => h x (List.mem_cons_of_mem y hx))

theorem foldl_max_all_eq (xs : List ℝ) : ∀ a : ℝ, (∀ x ∈ xs, x = a) → xs.foldl max a = a := by
  induction xs with
  | nil => intro a _; rfl
  | cons y ys ih =>
    intro a h
    have hy : y = a := h y (List.mem_cons_self y ys)
    show List.foldl max (max a y) ys = a
    rw [hy, max_self]
    exact ih a (fun x hx => h x (List.mem_cons_of_mem y hx))

theorem colMin_eq_colMax_of_const {l : List ℝ} {c : ℝ} (h : ∀ x ∈ l, x = c) :
    colMin l = colMax l := by
  cases l with
  | nil => rfl
  | cons y ys =>
    have hy : y = c := h y (List.mem_cons_self y ys)
    have h' : ∀ x ∈ ys, x = c := fun x hx => h x (List.mem_cons_of_mem y hx)
    show ys.foldl min y = ys.foldl max y
    rw [hy, foldl_min_all_eq ys c h', foldl_max_all_eq ys c h']

/-- C2: each normalized metric column applies `log1p` to the
`fillna(0)` values and min-max scales by the column's own min and max,
so every output lies in `[0, 1]`; a column whose values are all equal
normalizes to all zeros. -/
theorem C2_normalizer_bounds (column : List (Option ℝ)) :
    (∀ y ∈ normalizeColumn column, 0 ≤ y ∧ y ≤ 1) ∧
    (∀ c : ℝ, (∀ v ∈ column, v.getD 0 = c) → ∀ y ∈ normalizeColumn column, y = 0) := by
  constructor
  · intro y hy
    simp only [normalizeColumn] at hy
    by_cases hlt : colMax (column.map fun v => log1p (v.getD 0)) >
        colMin (column.map fun v => log1p (v.getD 0))
    · rw [if_pos hlt] at hy
      rcases List.mem_map.1 hy with ⟨x, hxmem, rfl⟩
      have h1 : colMin (column.map fun v => log1p (v.getD 0)) ≤ x := colMin_le_of_mem hxmem
      have h2 : x ≤ colMax (column.map fun v => log1p (v.getD 0)) := le_colMax_of_mem hxmem
      have hpos : 0 < colMax (column.map fun v => log1p (v.getD 0)) -
          colMin (column.map fun v => log1p (v.getD 0)) := sub_pos.2 hlt
      constructor
      · exact div_nonneg (sub_nonneg.2 h1) hpos.le
      · rw [div_le_one hpos]
        exact sub_le_sub_right h2 _
    · rw [if_neg hlt] at hy
      rcases List.mem_map.1 hy with ⟨x, hxmem, rfl⟩
      norm_num
  · intro c hc y hy
    simp only [normalizeColumn] at hy
    have hconst : ∀ x ∈ column.map (fun v => log1p (v.getD 0)), x = log1p c := by
      intro x hx
      rcases List.mem_map.1 hx with ⟨v, hv, rfl⟩
      rw [hc v hv]
    have heq : colMin (column.map fun v => log1p (v.getD 0)) =
        colMax (column.map fun v => log1p (v.getD 0)) := colMin_eq_colMax_of_const hconst
    have hnot : ¬ colMax (column.map fun v => log1p (v.getD 0)) >
        colMin (column.map fun v => log1p (v.getD 0)) := by
      rw [heq]
      exact lt_irrefl _
    rw [if_neg hnot] at hy
    rcases List.mem_map.1 hy with ⟨x, hxmem, rfl⟩
    rfl

/-- Witness for C2: the singleton all-missing column normalizes to
`[0]`, whose element satisfies the bounds. -/
theorem C2_normalizer_bounds_witness :
    (0 : ℝ) ∈ normalizeColumn [none] ∧ ((0 : ℝ) ≤ 0 ∧ (0 : ℝ) ≤ 1) := by
  have h0 : log1p ((none : Option ℝ).getD 0) = 0 := by simp [log1p]
  have hmem : (0 : ℝ) ∈ normalizeColumn [none] := by
    simp [normalizeColumn, colMin, colMax, h0]
  exact ⟨hmem, (C2_normalizer_bounds [none]).1 0 hmem⟩

theorem normalizeColumn_one_zero :
    normalizeColumn [some 1, some 0] = [1, 0] := by
  have hlog2 : (0 : ℝ) < Real.log 2 := Real.log_pos (by norm_num)
  have h1 : log1p ((some (1 : ℝ)).getD 0) = Real.log 2 := by norm_num [log1p]
  have h0 : log1p ((some (0 : ℝ)).getD 0) = 0 := by simp [log1p]
  have hmin : colMin [Real.log 2, 0] = 0 := by
    show List.foldl min (Real.log 2) [0] = 0
    simp [min_eq_right hlog2.le]
  have hmax : colMax [Real.log 2, 0] = Real.log 2 := by
    show List.foldl max (Real.log 2) [0] = Real.log 2
    simp [max_eq_left hlog2.le]
  simp only [normalizeColumn, List.map_cons, List.map_nil, h1, h0]
  rw [hmin, hmax, if_pos hlog2]
  simp [div_self (ne_of_gt hlog2)]

theorem finalScores_demo (w : Weights) :
    finalScores w demoDf = [w.citations_patent + w.citations_npl + w.family_size, 0] := by
  have hp : scoreColumn demoDf PatentRow.citations_patent = [1, 0] := by
    show normalizeColumn [some 1, some 0] = [1, 0]
    exact normalizeColumn_one_zero
  have hn : scoreColumn demoDf PatentRow.citations_npl = [1, 0] := by
    show normalizeColumn [some 1, some 0] = [1, 0]
    exact normalizeColumn_one_zero
  have hf : scoreColumn demoDf PatentRow.family_size = [1, 0] := by
    show normalizeColumn [some 1, some 0] = [1, 0]
    exact normalizeColumn_one_zero
  simp only [finalScores, hp, hn, hf, List.zipWith3]
  norm_num

/-- Counterexample to C1 as stated: the base scorer
(`CommercialScoring.calculate_scores`) combines the normalized metric
columns with the raw supplied weights, so uniformly rescaling the
shipped weights `{0.40, 0.35, 0.25}` by 100 changes the first demo
record's final score from 1 to 100. -/
theorem C1_base_scorer_rescaling_counterexample :
    finalScores configWeights demoDf = [1, 0] ∧
    finalScores (scaleWeights 100 configWeights) demoDf = [100, 0] ∧
    (1 : ℝ) ≠ 100 := by
  refine ⟨?_, ?_, by norm_num⟩
  · rw [finalScores_demo]
    norm_num [configWeights]
  · rw [finalScores_demo]
    norm_num [scaleWeights, configWeights]

theorem zipWith3_comb_scale (c wp wn wf : ℝ) :
    ∀ as bs cs : List ℝ,
      List.zipWith3 (fun a b d => a * (c * wp) + b * (c * wn) + d * (c * wf)) as bs cs =
        (List.zipWith3 (fun a b d => a * wp + b * wn + d * wf) as bs cs).map
          (fun s => c * s) := by
  intro as
  induction as with
  | nil => intro bs cs; rfl
  | cons a as ih =>
    intro bs cs
    cases bs with
    | nil => rfl
    | cons b bs =>
      cases cs with
      | nil => rfl
      | cons d cs =>
        simp only [List.zipWith3, List.map_cons]
        rw [ih bs cs]
        congr 1
        ring

/-- C1 amended: only the trend-rescoring step
(`_recalculate_with_trends`) renormalizes the four weights
(patent-citations, literature-citations, family-size, trend-score) to
total exactly 1, making its final score invariant under uniform
positive rescaling of the supplied weights; the base scorer
(`calculate_scores`) combines with the raw weights, so the same
rescaling multiplies every base final score by the factor. -/
theorem C1_weight_renormalization_amended (w : Weights) (c : ℝ) (row : ScoredRow)
    (df : List PatentRow) (hc : 0 < c) (htot : weightTotal w ≠ 0) :
    weightTotal (renormWeights w) = 1 ∧
    recalcFinalScore (scaleWeights c w) row = recalcFinalScore w row ∧
    finalScores (scaleWeights c w) df = (finalScores w df).map (fun s => c * s) := by
  have hscale : weightTotal (scaleWeights c w) = c * weightTotal w := by
    simp only [weightTotal, scaleWeights]
    ring
  refine ⟨?_, ?_, ?_⟩
  · simp only [weightTotal, renormWeights]
    rw [div_add_div_same, div_add_div_same, div_add_div_same]
    exact div_self htot
  · have h1 : ∀ x : ℝ, c * x / (c * weightTotal w) = x / weightTotal w := fun x =>
      mul_div_mul_left x (weightTotal w) (ne_of_gt hc)
    simp only [recalcFinalScore, renormWeights]
    rw [hscale]
    simp only [scaleWeights]
    rw [h1, h1, h1, h1]
  · simp only [finalScores, scaleWeights]
    exact zipWith3_comb_scale c _ _ _ _ _ _

/-- Witness for C1's amended statement at the shipped weights, factor
100, a concrete scored row, and the empty table. -/
theorem C1_weight_renormalization_amended_witness :
    weightTotal (renormWeights configWeights) = 1 ∧
    recalcFinalScore (scaleWeights 100 configWeights)
        { score_patent := 1, score_npl := 0, score_family := 0,
          google_trends_average := none } =
      recalcFinalScore configWeights
        { score_patent := 1, score_npl := 0, score_family := 0,
          google_trends_average := none } ∧
    finalScores (scaleWeights 100 configWeights) [] =
      (finalScores configWeights []).map (fun s => (100 : ℝ) * s) :=
  C1_weight_renormalization_amended configWeights 100
    { score_patent := 1, score_npl := 0, score_family := 0, google_trends_average := none }
    [] (by norm_num) (by norm_num [weightTotal, configWeights])

theorem normalizeColumn_const_five :
    normalizeColumn [some 5, some 5, some 5] = [0, 0, 0] := by
  have hgd : ((some (5 : ℝ)).getD 0) = 5 := rfl
  simp only [normalizeColumn, List.map_cons, List.map_nil, hgd]
  rw [show colMin [log1p 5, log1p 5, log1p 5] = log1p 5 from by simp [colMin],
    show colMax [log1p 5, log1p 5, log1p 5] = log1p 5 from by simp [colMax]]
  rw [if_neg (lt_irrefl _)]

/-- C3: on `tiedDf` — whose metric columns are constant, so the code
assigns every record the final score 0 whatever the supplied weights —
the ordering of `df.sort_values(by='Final_Score', ascending=False)` is
decided purely by tie handling.  The call uses pandas' default
`kind='quicksort'` (numpy introsort), which pandas documents as not
stable, so the program gives no original-input-order guarantee for
equal scores; the spec's required stable sort (`[0.5, 0.9, 0.5]` with
`[A, B, C]` yielding `[B, A, C]`) would need `kind='stable'` or
`kind='mergesort'`. -/
theorem C3_all_scores_tie_at_failing_input (w : Weights) :
    finalScores w tiedDf = [0, 0, 0] := by
  have hp : scoreColumn tiedDf PatentRow.citations_patent = [0, 0, 0] := by
    show normalizeColumn [some 5, some 5, some 5] = [0, 0, 0]
    exact normalizeColumn_const_five
  have hn : scoreColumn tiedDf PatentRow.citations_npl = [0, 0, 0] := by
    show normalizeColumn [some 5, some 5, some 5] = [0, 0, 0]
    exact normalizeColumn_const_five
  have hf : scoreColumn tiedDf PatentRow.family_size = [0, 0, 0] := by
    show normalizeColumn [some 5, some 5, some 5] = [0, 0, 0]
    exact normalizeColumn_const_five
  simp only [finalScores, hp, hn, hf, List.zipWith3]
  norm_num

end Pipeline
